import Mathlib

/-!
Verification development for the checksum-utils repository (Go).

The engine verifies and creates `.sha512` sidecar files.  We embed the
checksum processing engine shallowly:

* the Digest Engine (`crypto/sha512` in Go) as an executable SHA-512 over
  byte lists (bytes are `Nat`, machine words are `Nat` reduced `% 2^64`);
* `hex.EncodeToString` as `hexEncode`;
* `strings.TrimSpace` and `strings.EqualFold` at the byte level
  (`trimSpace`, `eqFold`): the comparison target is always a pure-ASCII
  lowercase hex string, on which Unicode simple folding coincides with
  ASCII folding;
* the filesystem as a finite association of paths to file entries whose
  fields record the outcomes of the `os.Open`, read (`io.Copy`) and
  `os.Stat` calls the Go code performs, plus a write-failure table;
* `checkChecksumFile` (src/cmd/check.go) and `createChecksumFile`
  (source file absent from the snapshot; modelled from the spec) as pure
  functions of that filesystem;
* `filepath.Walk` together with the walk callback of `checkCmd`
  (src/cmd/check.go) as a state-passing traversal over a directory tree.
-/

/-! ## Digest engine: SHA-512 over byte lists (FIPS 180-4) -/

/-- Reduce a natural number to a 64-bit machine word, as Go's `uint64`
arithmetic does implicitly. -/
def w64 (x : Nat) : Nat := x % 18446744073709551616

/-- Right rotation of a 64-bit word. -/
def rotr64 (n x : Nat) : Nat := w64 ((x >>> n) ||| (x <<< (64 - n)))

/-- SHA-512 Ch function. -/
def sha512Ch (x y z : Nat) : Nat :=
  (x &&& y) ^^^ ((x ^^^ 18446744073709551615) &&& z)

/-- SHA-512 Maj function. -/
def sha512Maj (x y z : Nat) : Nat :=
  (x &&& y) ^^^ (x &&& z) ^^^ (y &&& z)

/-- SHA-512 big Sigma-0. -/
def bigSigma0 (x : Nat) : Nat := rotr64 28 x ^^^ rotr64 34 x ^^^ rotr64 39 x

/-- SHA-512 big Sigma-1. -/
def bigSigma1 (x : Nat) : Nat := rotr64 14 x ^^^ rotr64 18 x ^^^ rotr64 41 x

/-- SHA-512 small sigma-0. -/
def smallSigma0 (x : Nat) : Nat := rotr64 1 x ^^^ rotr64 8 x ^^^ (x >>> 7)

/-- SHA-512 small sigma-1. -/
def smallSigma1 (x : Nat) : Nat := rotr64 19 x ^^^ rotr64 61 x ^^^ (x >>> 6)

/-- The 80 SHA-512 round constants. -/
def K512 : List Nat := [
  4794697086780616226, 8158064640168781261, 13096744586834688815, 16840607885511220156,
  4131703408338449720, 6480981068601479193, 10538285296894168987, 12329834152419229976,
  15566598209576043074, 1334009975649890238, 2608012711638119052, 6128411473006802146,
  8268148722764581231, 9286055187155687089, 11230858885718282805, 13951009754708518548,
  16472876342353939154, 17275323862435702243, 1135362057144423861, 2597628984639134821,
  3308224258029322869, 5365058923640841347, 6679025012923562964, 8573033837759648693,
  10970295158949994411, 12119686244451234320, 12683024718118986047, 13788192230050041572,
  14330467153632333762, 15395433587784984357, 489312712824947311, 1452737877330783856,
  2861767655752347644, 3322285676063803686, 5560940570517711597, 5996557281743188959,
  7280758554555802590, 8532644243296465576, 9350256976987008742, 10552545826968843579,
  11727347734174303076, 12113106623233404929, 14000437183269869457, 14369950271660146224,
  15101387698204529176, 15463397548674623760, 17586052441742319658, 1182934255886127544,
  1847814050463011016, 2177327727835720531, 2830643537854262169, 3796741975233480872,
  4115178125766777443, 5681478168544905931, 6601373596472566643, 7507060721942968483,
  8399075790359081724, 8693463985226723168, 9568029438360202098, 10144078919501101548,
  10430055236837252648, 11840083180663258601, 13761210420658862357, 14299343276471374635,
  14566680578165727644, 15097957966210449927, 16922976911328602910, 17689382322260857208,
  500013540394364858, 748580250866718886, 1242879168328830382, 1977374033974150939,
  2944078676154940804, 3659926193048069267, 4368137639120453308, 4836135668995329356,
  5532061633213252278, 6448918945643986474, 6902733635092675308, 7801388544844847127]

/-- The eight working variables / hash words of SHA-512. -/
structure Hash8 where
  a : Nat
  b : Nat
  c : Nat
  d : Nat
  e : Nat
  f : Nat
  g : Nat
  h : Nat

/-- SHA-512 initial hash value. -/
def sha512H0 : Hash8 :=
  ⟨7640891576956012808, 13503953896175478587, 4354685564936845355,
   11912009170470909681, 5840696475078001361, 11170449401992604703,
   2270897969802886507, 6620516959819538809⟩

/-- One SHA-512 compression round; `kw` pairs the round constant with the
scheduled message word. -/
def sha512Round (st : Hash8) (kw : Nat × Nat) : Hash8 :=
  let t1 := w64 (st.h + bigSigma1 st.e + sha512Ch st.e st.f st.g + kw.1 + kw.2)
  let t2 := w64 (bigSigma0 st.a + sha512Maj st.a st.b st.c)
  ⟨w64 (t1 + t2), st.a, st.b, st.c, w64 (st.d + t1), st.e, st.f, st.g⟩

/-- Extend the 16-word message schedule by `n` further words. -/
def extendSchedule : List Nat → Nat → List Nat
  | ws, 0 => ws
  | ws, n + 1 =>
    let len := ws.length
    let next := w64 (smallSigma1 (ws.getD (len - 2) 0) + ws.getD (len - 7) 0 +
      smallSigma0 (ws.getD (len - 15) 0) + ws.getD (len - 16) 0)
    extendSchedule (ws ++ [next]) n

/-- Compress one 16-word message block into the running hash state. -/
def sha512Compress (h0 : Hash8) (ws : List Nat) : Hash8 :=
  let w := extendSchedule ws 64
  let s := (List.zip K512 w).foldl sha512Round h0
  ⟨w64 (h0.a + s.a), w64 (h0.b + s.b), w64 (h0.c + s.c), w64 (h0.d + s.d),
   w64 (h0.e + s.e), w64 (h0.f + s.f), w64 (h0.g + s.g), w64 (h0.h + s.h)⟩

/-- Big-endian 64-bit word from (up to) 8 bytes. -/
def bytesToWord (bs : List Nat) : Nat := bs.foldl (fun acc b => acc * 256 + b) 0

/-- Split a byte list into groups of `n` bytes; the fuel argument (at
least the list length) makes the recursion structural. -/
def chunkGo (n : Nat) : Nat → List Nat → List (List Nat)
  | _, [] => []
  | 0, _ :: _ => []
  | fuel + 1, b :: rest => ((b :: rest).take n) :: chunkGo n fuel ((b :: rest).drop n)

/-- Split a byte list into 8-byte groups. -/
def chunk8 (l : List Nat) : List (List Nat) := chunkGo 8 l.length l

/-- Split a byte list into 128-byte blocks. -/
def chunk128 (l : List Nat) : List (List Nat) := chunkGo 128 l.length l

/-- The 16-byte big-endian encoding of the bit length, as appended by
SHA-512 padding. -/
def lengthBytes (bits : Nat) : List Nat :=
  [(bits >>> 120) % 256, (bits >>> 112) % 256, (bits >>> 104) % 256,
   (bits >>> 96) % 256, (bits >>> 88) % 256, (bits >>> 80) % 256,
   (bits >>> 72) % 256, (bits >>> 64) % 256, (bits >>> 56) % 256,
   (bits >>> 48) % 256, (bits >>> 40) % 256, (bits >>> 32) % 256,
   (bits >>> 24) % 256, (bits >>> 16) % 256, (bits >>> 8) % 256, bits % 256]

/-- SHA-512 padding: append `0x80`, zero bytes, and the 128-bit message
bit length, reaching a multiple of 128 bytes. -/
def padMessage (m : List Nat) : List Nat :=
  let L := m.length
  let zeros := (128 - ((L + 17) % 128)) % 128
  m ++ 128 :: List.replicate zeros 0 ++ lengthBytes (8 * L)

/-- Big-endian bytes of one 64-bit hash word. -/
def wordBytes (w : Nat) : List Nat :=
  [(w >>> 56) % 256, (w >>> 48) % 256, (w >>> 40) % 256, (w >>> 32) % 256,
   (w >>> 24) % 256, (w >>> 16) % 256, (w >>> 8) % 256, (w >>> 0) % 256]

/-- The 64-byte SHA-512 digest of a byte list, as computed by Go's
`crypto/sha512` (`hash.Sum(nil)` after `io.Copy`). -/
def sha512 (m : List Nat) : List Nat :=
  let blocks := chunk128 (padMessage m)
  let hw := blocks.foldl (fun h blk => sha512Compress h ((chunk8 blk).map bytesToWord)) sha512H0
  wordBytes hw.a ++ wordBytes hw.b ++ wordBytes hw.c ++ wordBytes hw.d ++
    wordBytes hw.e ++ wordBytes hw.f ++ wordBytes hw.g ++ wordBytes hw.h

/-! ## Hex encoding, trimming, case folding -/

/-- Lowercase hex digit character code for a nibble, as in Go's
`encoding/hex` digit table "0123456789abcdef". -/
def hexDigitChar (n : Nat) : Nat := if n < 10 then 48 + n else 97 + (n - 10)

/-- `hex.EncodeToString`: each byte becomes its high then low nibble
digit. -/
def hexEncode : List Nat → List Nat
  | [] => []
  | b :: rest => hexDigitChar (b / 16) :: hexDigitChar (b % 16) :: hexEncode rest

/-- ASCII whitespace bytes trimmed by `strings.TrimSpace` on ASCII
content. -/
def isSpaceByte (b : Nat) : Bool :=
  b == 9 || b == 10 || b == 11 || b == 12 || b == 13 || b == 32

/-- `strings.TrimSpace` at the byte level: drop whitespace from both
ends. -/
def trimSpace (l : List Nat) : List Nat :=
  ((l.dropWhile isSpaceByte).reverse.dropWhile isSpaceByte).reverse

/-- ASCII simple case folding of one byte (uppercase letters map to
lowercase). -/
def foldByte (b : Nat) : Nat := if 65 ≤ b && b ≤ 90 then b + 32 else b

/-- `strings.EqualFold` restricted to the use in this program: the left
operand is a pure-ASCII lowercase hex string, on which Go's Unicode
simple folding agrees with per-byte ASCII folding. -/
def eqFold (x y : List Nat) : Bool := x.map foldByte == y.map foldByte

/-! ## Filesystem model

A path maps to a `FileEntry` recording the file's byte content and the
outcomes of the system calls the Go code can make on it: `openErr` is the
result of `os.Open` (`none` = success), `readErr` the result of streaming
the opened handle (`io.Copy` / `os.ReadFile` body), and `statErr` a
non-existence-related failure of `os.Stat` on the path.  An absent path
yields the not-exist error for open and stat.  `writeErrs` lists paths on
which `os.WriteFile` fails. -/

/-- Operating-system error classes the Go code distinguishes
(`os.IsPermission`, `errors.Is(err, os.ErrNotExist)`, anything else). -/
inductive OsError where
  | permission
  | notExist
  | other
deriving DecidableEq

/-- Per-path filesystem entry: content plus per-syscall outcomes. -/
structure FileEntry where
  content : List Nat
  openErr : Option OsError
  readErr : Option OsError
  statErr : Option OsError
deriving DecidableEq

/-- The modelled filesystem state. -/
structure FSys where
  entries : List (String × FileEntry)
  writeErrs : List (String × OsError)
deriving DecidableEq

/-- Look a path up in the filesystem. -/
def fsFind (fs : FSys) (p : String) : Option FileEntry := fs.entries.lookup p

/-- `os.Open`: not-exist when absent, otherwise the entry's open
outcome. -/
def fsOpen (fs : FSys) (p : String) : Except OsError FileEntry :=
  match fsFind fs p with
  | none => .error .notExist
  | some e =>
    match e.openErr with
    | some err => .error err
    | none => .ok e

/-- `os.Stat`: not-exist when absent, otherwise the entry's stat
outcome. -/
def fsStat (fs : FSys) (p : String) : Except OsError Unit :=
  match fsFind fs p with
  | none => .error .notExist
  | some e =>
    match e.statErr with
    | some err => .error err
    | none => .ok ()

/-- Streaming the content of an already-opened file (`io.Copy` into the
hash object). -/
def readAll (e : FileEntry) : Except OsError (List Nat) :=
  match e.readErr with
  | some err => .error err
  | none => .ok e.content

/-- `os.ReadFile`: open then read the full content. -/
def fsReadFile (fs : FSys) (p : String) : Except OsError (List Nat) :=
  match fsFind fs p with
  | none => .error .notExist
  | some e =>
    match e.openErr with
    | some err => .error err
    | none =>
      match e.readErr with
      | some err => .error err
      | none => .ok e.content

/-- `os.WriteFile`: fails on the listed paths, otherwise installs a fresh
fully-accessible entry holding the written bytes (shadowing any previous
entry for the path). -/
def fsWriteFile (fs : FSys) (p : String) (bs : List Nat) : Except OsError FSys :=
  match fs.writeErrs.lookup p with
  | some err => .error err
  | none => .ok ⟨(p, ⟨bs, none, none, none⟩) :: fs.entries, fs.writeErrs⟩

/-- The sidecar suffix appended to a data path (`".sha512"`). -/
def sidecarSuffix : String := ".sha512"

/-- The sidecar path of a data file. -/
def sidecarPath (p : String) : String := p ++ sidecarSuffix

/-- The sidecar-extension test `filepath.Ext(path) == ".sha512"`: since
the suffix contains exactly one dot, at its start, this is equivalent to
the path ending in `".sha512"`, checked here on the character list. -/
def hasSidecarSuffix (p : String) : Bool :=
  p.data.reverse.take 7 == sidecarSuffix.data.reverse

/-! ## The verification classifier (src/cmd/check.go) -/

/-- The five verification statuses of `check.go` (`Match`, `NotMatch`,
`NotFound`, `CheckingFailed`, `Locked`). -/
inductive ChecksumFileVerificationStatus where
  | Match
  | NotMatch
  | NotFound
  | CheckingFailed
  | LockedVerification
deriving DecidableEq

/-- `ChecksumFileVerificationResult` from check.go. -/
structure ChecksumFileVerificationResult where
  Path : String
  Status : ChecksumFileVerificationStatus
  Error : Option OsError
deriving DecidableEq

/-- `checkChecksumFile` from src/cmd/check.go: open the data file
(permission failure → Locked, other failure → CheckingFailed), stat the
sidecar (absent → NotFound, other stat failure → CheckingFailed), stream
the data through SHA-512 (failure → CheckingFailed), read the sidecar
(failure → CheckingFailed), then compare the trimmed sidecar text with
the hex digest case-insensitively (equal → Match, unequal →
NotMatch). -/
def checkChecksumFile (fs : FSys) (fileAbsolutePath : String) : ChecksumFileVerificationResult :=
  match fsOpen fs fileAbsolutePath with
  | .error err =>
    if err = .permission then
      ⟨fileAbsolutePath, .LockedVerification, some err⟩
    else
      ⟨fileAbsolutePath, .CheckingFailed, some err⟩
  | .ok file =>
    match fsStat fs (sidecarPath fileAbsolutePath) with
    | .error err =>
      if err = .notExist then
        ⟨fileAbsolutePath, .NotFound, none⟩
      else
        ⟨fileAbsolutePath, .CheckingFailed, some err⟩
    | .ok _ =>
      match readAll file with
      | .error err => ⟨fileAbsolutePath, .CheckingFailed, some err⟩
      | .ok data =>
        let hexFileChecksum := hexEncode (sha512 data)
        match fsReadFile fs (sidecarPath fileAbsolutePath) with
        | .error err => ⟨fileAbsolutePath, .CheckingFailed, some err⟩
        | .ok checksumFileContent =>
          let checksumFileContentTrimmed := trimSpace checksumFileContent
          if eqFold hexFileChecksum checksumFileContentTrimmed then
            ⟨fileAbsolutePath, .Match, none⟩
          else
            ⟨fileAbsolutePath, .NotMatch, none⟩

/-! ## The creation classifier (source file absent from the snapshot) -/

/-- Modelled from the spec: the four creation statuses of the creation
classifier (`Created`, `Existing`, `LockedCreation`, `Failed`), whose
defining source file is not in the snapshot (only its tests are). -/
inductive ChecksumFileCreationStatus where
  | Created
  | Existing
  | LockedCreation
  | Failed
deriving DecidableEq

/-- Modelled from the spec: the creation outcome record, mirroring the
verification result shape used by the tests of the absent create
source. -/
structure ChecksumFileCreationResult where
  Path : String
  Status : ChecksumFileCreationStatus
  Error : Option OsError
deriving DecidableEq

/-- Modelled from the spec: `createChecksumFile`, whose source file is
absent from the snapshot.  Spec algorithm: if the sidecar already exists
return `Existing` immediately without touching the data file; otherwise
open the data file (permission failure → `LockedCreation`, other open
failure → `Failed`), stream-compute the digest (failure → `Failed`),
write the hex digest to the sidecar path (failure → `Failed`), and
return `Created`.  A non-not-exist stat failure while checking the
sidecar is classified as a generic `Failed` per the error taxonomy. -/
def createChecksumFile (fs : FSys) (fileAbsolutePath : String) :
    FSys × ChecksumFileCreationResult :=
  match fsStat fs (sidecarPath fileAbsolutePath) with
  | .ok _ => (fs, ⟨fileAbsolutePath, .Existing, none⟩)
  | .error statErr =>
    if statErr = .notExist then
      match fsOpen fs fileAbsolutePath with
      | .error err =>
        if err = .permission then
          (fs, ⟨fileAbsolutePath, .LockedCreation, some err⟩)
        else
          (fs, ⟨fileAbsolutePath, .Failed, some err⟩)
      | .ok file =>
        match readAll file with
        | .error err => (fs, ⟨fileAbsolutePath, .Failed, some err⟩)
        | .ok data =>
          match fsWriteFile fs (sidecarPath fileAbsolutePath) (hexEncode (sha512 data)) with
          | .error err => (fs, ⟨fileAbsolutePath, .Failed, some err⟩)
          | .ok fs2 => (fs2, ⟨fileAbsolutePath, .Created, none⟩)
    else
      (fs, ⟨fileAbsolutePath, .Failed, some statErr⟩)

/-! ## Traversal driver: `filepath.Walk` with the `checkCmd` callback

The directory tree reached from a root argument is a value of `FSNode`;
a directory node carries the readdir failure `filepath.Walk` would
report for it (the walk primitive then hands that error to the callback
once for the directory).  Nodes carry their absolute paths, so
`filepath.Abs` is the identity in the model (its failure branches in the
Go code are unreachable here).  Per-file classification consults the
separate `FSys` state, mirroring the split between directory enumeration
and per-file I/O. -/

/-- A directory tree node, carrying absolute paths. -/
inductive FSNode where
  | file (path : String)
  | dir (path : String) (readDirErr : Option OsError) (children : List FSNode)

/-- Errors accumulated in the top-level error list
(`errorsCheckingChecksumFiles`): operating-system errors and the
"is a checksum file" error for sidecar arguments. -/
inductive CheckError where
  | osErr (e : OsError)
  | isChecksumFile (path : String)
deriving DecidableEq

/-- The run state of the check command: the top-level error list and the
per-root result list. -/
structure CheckState where
  errors : List CheckError
  results : List ChecksumFileVerificationResult
deriving DecidableEq

/-- `handleChecksumFileVerification` from src/cmd/check.go: skip sidecar
files, otherwise classify the file and append the outcome.  Its only
error return in Go is a `filepath.Abs` failure, which the model treats
as impossible, so it always reports success to the walk. -/
def handleChecksumFileVerification (fs : FSys) (filePath : String)
    (results : List ChecksumFileVerificationResult) : List ChecksumFileVerificationResult :=
  if hasSidecarSuffix filePath then results
  else results ++ [checkChecksumFile fs filePath]

/-- `filepath.Walk` specialised to the callback in `checkCmd`
(src/cmd/check.go): walk a node list in order.  A file is handed to
`handleChecksumFileVerification`.  A directory whose enumeration fails
makes the callback append the error to the top-level list and return it,
which stops the walk and propagates the error to the caller of
`filepath.Walk`.  A readable directory's children are walked recursively
and an error from inside stops the remaining siblings as well.  The fuel
argument makes the recursion structural; callers pass at least the tree
size, so the zero-fuel branch is never reached. -/
def walkListGo (fs : FSys) : Nat → CheckState → List FSNode → CheckState × Option OsError
  | _, st, [] => (st, none)
  | 0, st, _ :: _ => (st, none)
  | fuel + 1, st, .file p :: rest =>
    walkListGo fs fuel { st with results := handleChecksumFileVerification fs p st.results } rest
  | _ + 1, st, .dir _ (some e) _ :: _ =>
    ({ st with errors := st.errors ++ [.osErr e] }, some e)
  | fuel + 1, st, .dir _ none children :: rest =>
    match walkListGo fs fuel st children with
    | (st2, none) => walkListGo fs fuel st2 rest
    | (st2, some e) => (st2, some e)

mutual

/-- Number of nodes in a tree, used as walk fuel. -/
def nodeFuel : FSNode → Nat
  | .file _ => 1
  | .dir _ _ children => 1 + forestFuel children

/-- Number of nodes in a forest. -/
def forestFuel : List FSNode → Nat
  | [] => 0
  | n :: rest => nodeFuel n + forestFuel rest

end

/-- `filepath.Walk` on one root node. -/
def filepathWalk (fs : FSys) (st : CheckState) (root : FSNode) : CheckState × Option OsError :=
  walkListGo fs (nodeFuel root) st [root]

/-- The `checkCmd` treatment of one directory root: run the walk and, if
`filepath.Walk` returned an error, append it to the top-level error list
a further time. -/
def checkWalkRoot (fs : FSys) (st : CheckState) (root : FSNode) : CheckState :=
  match filepathWalk fs st root with
  | (st2, none) => st2
  | (st2, some e) => { st2 with errors := st2.errors ++ [.osErr e] }

/-- One top-level path argument of `check`: either `os.Stat` on it fails
with some error, or it resolves to a tree node (file or directory). -/
inductive CheckArg where
  | statFailure (path : String) (e : OsError)
  | node (n : FSNode)

/-- Processing of one argument by the `checkCmd` run loop
(src/cmd/check.go): a stat failure is recorded and skipped; a directory
is walked; a sidecar file argument is recorded as an error; any other
file is classified directly.  Returns the updated error list and the
result list for this argument (the global result list is reset per
argument). -/
def runCheckArg (fs : FSys) (errs : List CheckError) :
    CheckArg → List CheckError × List ChecksumFileVerificationResult
  | .statFailure _ e => (errs ++ [.osErr e], [])
  | .node (.dir p rdErr children) =>
    let st := checkWalkRoot fs ⟨errs, []⟩ (.dir p rdErr children)
    (st.errors, st.results)
  | .node (.file p) =>
    if hasSidecarSuffix p then (errs ++ [.isChecksumFile p], [])
    else (errs, handleChecksumFileVerification fs p [])

/-- The `checkCmd` run loop over all arguments: every argument is
processed in order, accumulating the top-level error list and one result
list per argument. -/
def runCheckArgs (fs : FSys) (errs : List CheckError) :
    List CheckArg → List CheckError × List (List ChecksumFileVerificationResult)
  | [] => (errs, [])
  | a :: rest =>
    let r := runCheckArg fs errs a
    let rr := runCheckArgs fs r.1 rest
    (rr.1, r.2 :: rr.2)

/-- Modelled from the spec: the drive of the absent create command over a
list of candidate files (`processPaths` in src/cmd/root.go with the
creation handler): each candidate is classified in order, threading the
filesystem through the sidecar writes, and every candidate yields
exactly one outcome. -/
def runCreateFiles (fs : FSys) : List String → FSys × List ChecksumFileCreationResult
  | [] => (fs, [])
  | p :: rest =>
    let r := createChecksumFile fs p
    let rr := runCreateFiles r.1 rest
    (rr.1, r.2 :: rr.2)

/-- Whether a tree node is a plain file. -/
def isFileNode : FSNode → Bool
  | .file _ => true
  | .dir _ _ _ => false

/-- The verification outcomes the walk produces for a list of file nodes:
one `checkChecksumFile` result per non-sidecar file, in order. -/
def candidateResults (fs : FSys) : List FSNode → List ChecksumFileVerificationResult
  | [] => []
  | .file p :: rest =>
    (if hasSidecarSuffix p then [] else [checkChecksumFile fs p]) ++
      candidateResults fs rest
  | .dir _ _ _ :: rest => candidateResults fs rest

/-- Lowercase hex digit byte: an ASCII decimal digit or one of the
letters a-f. -/
def isLowerHexByte (b : Nat) : Bool := (48 ≤ b && b ≤ 57) || (97 ≤ b && b ≤ 102)

/-! ## Concrete states used by the witnesses and counterexamples -/

/-- Data path of the permission-denied witness file. -/
def pathC2 : String := "/d/locked.txt"

/-- A file entry whose `os.Open` fails with a permission error. -/
def entryC2 : FileEntry := ⟨[115, 101, 99], some .permission, none, none⟩

/-- Filesystem with one permission-locked data file and no sidecar. -/
def fsC2 : FSys := ⟨[(pathC2, entryC2)], []⟩

/-- Data path of the case-insensitive match witness file. -/
def pathC3 : String := "/d/hello.txt"

/-- The bytes of the string "hello". -/
def dataC3 : List Nat := [104, 101, 108, 108, 111]

/-- Sidecar bytes: the uppercase hex SHA-512 digest of "hello" followed
by a newline, exercising both case folding and trimming. -/
def sidecarTextC3 : List Nat :=
  ("9B71D224BD62F3785D96D46AD3EA3D73319BFBC2890CAADAE2DFF72519673CA72323C3D99BA5C11D7C7ACC6E14B8C5DA0C4663475C2E5C3ADEF46F73BCDEC043".data.map Char.toNat) ++ [10]

/-- Fully readable entry holding the "hello" bytes. -/
def entryC3 : FileEntry := ⟨dataC3, none, none, none⟩

/-- Fully readable sidecar entry with the uppercase digest text. -/
def scEntryC3 : FileEntry := ⟨sidecarTextC3, none, none, none⟩

/-- Filesystem pairing the "hello" file with its uppercase sidecar. -/
def fsC3 : FSys := ⟨[(pathC3, entryC3), (sidecarPath pathC3, scEntryC3)], []⟩

/-- Data path of the round-trip witness file. -/
def pathC4 : String := "/d/roundtrip.bin"

/-- Fully readable entry with three data bytes. -/
def entryC4 : FileEntry := ⟨[1, 2, 3], none, none, none⟩

/-- Filesystem with one readable data file and no sidecar. -/
def fsC4 : FSys := ⟨[(pathC4, entryC4)], []⟩

/-- Data path of the existing-sidecar witness file. -/
def pathC5 : String := "/d/existing.txt"

/-- An unreadable (permission-locked) data entry. -/
def entryC5 : FileEntry := ⟨[1, 2], some .permission, none, none⟩

/-- A readable sidecar entry with arbitrary prior content. -/
def scEntryC5 : FileEntry := ⟨[101, 120], none, none, none⟩

/-- Filesystem with an unreadable data file whose sidecar exists. -/
def fsC5 : FSys := ⟨[(pathC5, entryC5), (sidecarPath pathC5, scEntryC5)], []⟩

/-- Data path of the no-sidecar witness file. -/
def pathC6 : String := "/d/plain.txt"

/-- A fully readable data entry. -/
def entryC6 : FileEntry := ⟨[104, 105], none, none, none⟩

/-- Filesystem with one readable data file and no sidecar. -/
def fsC6 : FSys := ⟨[(pathC6, entryC6)], []⟩

/-- Data path of the creation witness file. -/
def pathC7 : String := "/d/new.bin"

/-- A fully readable data entry with bytes exercising both nibbles. -/
def entryC7 : FileEntry := ⟨[255, 0, 16], none, none, none⟩

/-- Filesystem with one readable data file and no sidecar. -/
def fsC7 : FSys := ⟨[(pathC7, entryC7)], []⟩

/-- First candidate path of the isolation witness: permission-locked. -/
def pathC9a : String := "/w/a.txt"

/-- Second candidate path of the isolation witness: absent from the
filesystem. -/
def pathC9b : String := "/w/b.txt"

/-- Third candidate path of the isolation witness: readable, no
sidecar. -/
def pathC9c : String := "/w/c.txt"

/-- Filesystem for the isolation witness. -/
def fsC9 : FSys := ⟨[(pathC9a, ⟨[1], some .permission, none, none⟩),
  (pathC9c, ⟨[2], none, none, none⟩)], []⟩

/-- The three candidate file nodes of the isolation witness. -/
def nsC9 : List FSNode := [.file pathC9a, .file pathC9b, .file pathC9c]

/-- A root directory whose enumeration fails. -/
def rootC10 : FSNode := .dir ("/u") (some .other) []

/-- Empty filesystem for the duplicate-error witness. -/
def fsC10 : FSys := ⟨[], []⟩

/-- Path of the sibling file abandoned by the aborted walk. -/
def okPathC1 : String := "/r/ok.txt"

/-- A readable entry for the abandoned sibling file. -/
def okEntryC1 : FileEntry := ⟨[], none, none, none⟩

/-- Filesystem for the abandoned-sibling counterexample. -/
def fsC1 : FSys := ⟨[(okPathC1, okEntryC1)], []⟩

/-- A root whose first child directory fails to enumerate and whose
second child is a readable file. -/
def treeC1 : FSNode :=
  .dir ("/r") none [.dir ("/r/sub") (some .permission) [], .file okPathC1]

/-- A root directory whose enumeration fails, for the amended-claim
witness. -/
def rootC1w : FSNode := .dir ("/q") (some .permission) []

/-- Empty filesystem for the amended-claim witness. -/
def fsC1w : FSys := ⟨[], []⟩

/-! ## Helper lemmas -/

/-- Hex digit characters are above the ASCII whitespace range. -/
theorem hexDigitChar_gt_32 (n : Nat) : 32 < hexDigitChar n := by
  unfold hexDigitChar; split <;> omega

/-- Bytes above 32 are not ASCII whitespace. -/
theorem isSpaceByte_eq_false_of_gt {b : Nat} (h : 32 < b) : isSpaceByte b = false := by
  unfold isSpaceByte
  simp only [Bool.or_eq_false_iff, beq_eq_false_iff_ne]
  omega

/-- Every byte of a hex encoding is a hex digit character of a nibble of
one of the input bytes. -/
theorem mem_hexEncode {b : Nat} {l : List Nat} (h : b ∈ hexEncode l) :
    ∃ x ∈ l, b = hexDigitChar (x / 16) ∨ b = hexDigitChar (x % 16) := by
  induction l with
  | nil => simp [hexEncode] at h
  | cons a t ih =>
    simp only [hexEncode, List.mem_cons] at h
    rcases h with h | h | h
    · exact ⟨a, by simp, Or.inl h⟩
    · exact ⟨a, by simp, Or.inr h⟩
    · obtain ⟨x, hx, hb⟩ := ih h
      exact ⟨x, by simp [hx], hb⟩

/-- Dropping leading whitespace from a whitespace-free list changes
nothing. -/
theorem dropWhile_isSpace_eq_self {l : List Nat} (h : ∀ b ∈ l, isSpaceByte b = false) :
    l.dropWhile isSpaceByte = l := by
  cases l with
  | nil => rfl
  | cons a t => simp [List.dropWhile_cons, h a (by simp)]

/-- Trimming a whitespace-free list changes nothing. -/
theorem trimSpace_eq_self {l : List Nat} (h : ∀ b ∈ l, isSpaceByte b = false) :
    trimSpace l = l := by
  unfold trimSpace
  rw [dropWhile_isSpace_eq_self h,
    dropWhile_isSpace_eq_self (fun b hb => h b (List.mem_reverse.mp hb)),
    List.reverse_reverse]

/-- A hex encoding contains no whitespace, so trimming it changes
nothing. -/
theorem trimSpace_hexEncode (l : List Nat) : trimSpace (hexEncode l) = hexEncode l := by
  refine trimSpace_eq_self (fun b hb => ?_)
  obtain ⟨x, _, hb⟩ := mem_hexEncode hb
  rcases hb with rfl | rfl <;> exact isSpaceByte_eq_false_of_gt (hexDigitChar_gt_32 _)

/-- Case-insensitive comparison is reflexive. -/
theorem eqFold_refl (l : List Nat) : eqFold l l = true := by
  simp [eqFold]

/-- A data path never equals its own sidecar path. -/
theorem sidecarPath_ne (p : String) : sidecarPath p ≠ p := by
  intro h
  have hlen := congrArg String.length h
  rw [sidecarPath, String.length_append] at hlen
  have h7 : sidecarSuffix.length = 7 := rfl
  omega

/-- The digest is always 64 bytes (512 bits). -/
theorem sha512_length (m : List Nat) : (sha512 m).length = 64 := by
  simp [sha512, wordBytes]

/-- Every byte of a word encoding is an actual byte value. -/
theorem mem_wordBytes_lt {b w : Nat} (h : b ∈ wordBytes w) : b < 256 := by
  simp only [wordBytes, List.mem_cons, List.not_mem_nil, or_false] at h
  rcases h with h | h | h | h | h | h | h | h <;> subst h <;> exact Nat.mod_lt _ (by omega)

/-- Every digest byte is an actual byte value. -/
theorem sha512_bytes_lt (m : List Nat) : ∀ b ∈ sha512 m, b < 256 := by
  intro b hb
  simp only [sha512, List.append_assoc, List.mem_append] at hb
  rcases hb with h | h | h | h | h | h | h | h <;> exact mem_wordBytes_lt h

/-- Hex digit characters of nibbles are lowercase hex digit bytes. -/
theorem hexDigitChar_isLowerHex {n : Nat} (h : n < 16) :
    isLowerHexByte (hexDigitChar n) = true := by
  unfold hexDigitChar isLowerHexByte
  split <;> simp <;> omega

/-- The hex encoding of actual bytes consists of lowercase hex digit
bytes only. -/
theorem hexEncode_lowerHex {l : List Nat} (hl : ∀ x ∈ l, x < 256) :
    ∀ b ∈ hexEncode l, isLowerHexByte b = true := by
  intro b hb
  obtain ⟨x, hx, hb⟩ := mem_hexEncode hb
  have hx256 := hl x hx
  rcases hb with rfl | rfl
  · exact hexDigitChar_isLowerHex ((Nat.div_lt_iff_lt_mul (by omega)).mpr (by omega))
  · exact hexDigitChar_isLowerHex (Nat.mod_lt _ (by omega))

/-- Hex encoding doubles the length. -/
theorem hexEncode_length (l : List Nat) : (hexEncode l).length = 2 * l.length := by
  induction l with
  | nil => rfl
  | cons a t ih => simp [hexEncode, ih]; omega

/-! ## Classifier theorems -/

/-- C2: a permission-denied `os.Open` of the data file is classified
`Locked` with the error attached, before the sidecar is ever consulted,
so the sidecar may or may not exist. -/
theorem verify_locked_before_sidecar (fs : FSys) (p : String) (entry : FileEntry)
    (h1 : fsFind fs p = some entry) (h2 : entry.openErr = some .permission) :
    checkChecksumFile fs p = ⟨p, .LockedVerification, some .permission⟩ := by
  simp [checkChecksumFile, fsOpen, h1, h2]

/-- C6: an openable data file with no sidecar is classified `NotFound`
with no error, whatever its content. -/
theorem verify_notFound_of_no_sidecar (fs : FSys) (p : String) (entry : FileEntry)
    (h1 : fsFind fs p = some entry) (h2 : entry.openErr = none)
    (h3 : fsFind fs (sidecarPath p) = none) :
    checkChecksumFile fs p = ⟨p, .NotFound, none⟩ := by
  simp [checkChecksumFile, fsOpen, fsStat, h1, h2, h3]

/-- C5: with an existing (statable) sidecar, creation returns `Existing`
with no error and leaves the whole filesystem unchanged; the data file's
entry is unconstrained, so the result is the same even when the data
file is unreadable. -/
theorem create_existing_short_circuits (fs : FSys) (p : String) (sc : FileEntry)
    (h1 : fsFind fs (sidecarPath p) = some sc) (h2 : sc.statErr = none) :
    createChecksumFile fs p = (fs, ⟨p, .Existing, none⟩) := by
  simp [createChecksumFile, fsStat, h1, h2]

/-- C3: for a readable data file with a readable, statable sidecar, the
status is `Match` exactly when the trimmed sidecar bytes equal the hex
digest under case folding, `NotMatch` otherwise, with no error either
way. -/
theorem verify_compares_folded_trimmed (fs : FSys) (p : String) (entry sc : FileEntry)
    (h1 : fsFind fs p = some entry) (h2 : entry.openErr = none) (h3 : entry.readErr = none)
    (h4 : fsFind fs (sidecarPath p) = some sc) (h5 : sc.statErr = none)
    (h6 : sc.openErr = none) (h7 : sc.readErr = none) :
    checkChecksumFile fs p =
      ⟨p, if eqFold (hexEncode (sha512 entry.content)) (trimSpace sc.content) then
            .Match
          else
            .NotMatch, none⟩ := by
  simp only [checkChecksumFile, fsOpen, fsStat, fsReadFile, readAll, h1, h2, h3, h4, h5, h6, h7]
  split <;> rfl

/-- Shared unfolding: creation on a readable data file with no sidecar
and a writable sidecar path prepends the written sidecar entry and
reports `Created`. -/
theorem createChecksumFile_eq (fs : FSys) (p : String) (entry : FileEntry)
    (h1 : fsFind fs p = some entry) (h2 : entry.openErr = none) (h3 : entry.readErr = none)
    (h4 : fsFind fs (sidecarPath p) = none)
    (h5 : fs.writeErrs.lookup (sidecarPath p) = none) :
    createChecksumFile fs p =
      (⟨(sidecarPath p, ⟨hexEncode (sha512 entry.content), none, none, none⟩) :: fs.entries,
          fs.writeErrs⟩,
        ⟨p, .Created, none⟩) := by
  simp [createChecksumFile, fsStat, fsOpen, readAll, fsWriteFile, h1, h2, h3, h4, h5]

/-- C4: round-trip — creating the sidecar for a readable data file with
no pre-existing sidecar succeeds, and verifying the same file against
the resulting filesystem reports `Match`. -/
theorem create_then_verify_match (fs : FSys) (p : String) (entry : FileEntry)
    (h1 : fsFind fs p = some entry) (h2 : entry.openErr = none) (h3 : entry.readErr = none)
    (h4 : fsFind fs (sidecarPath p) = none)
    (h5 : fs.writeErrs.lookup (sidecarPath p) = none) :
    (createChecksumFile fs p).2.Status = .Created ∧
    checkChecksumFile (createChecksumFile fs p).1 p = ⟨p, .Match, none⟩ := by
  have hc := createChecksumFile_eq fs p entry h1 h2 h3 h4 h5
  rw [hc]
  refine ⟨rfl, ?_⟩
  have hbne : (p == sidecarPath p) = false :=
    beq_eq_false_iff_ne.mpr (Ne.symm (sidecarPath_ne p))
  have h1' : List.lookup p fs.entries = some entry := h1
  simp [checkChecksumFile, fsOpen, fsStat, fsReadFile, readAll, fsFind, List.lookup,
    hbne, h1', h2, h3, trimSpace_hexEncode, eqFold_refl]

/-- C7: creating the sidecar for a readable data file with no sidecar
returns `Created` with no error and writes exactly the hex digest: 128
lowercase hex digit bytes (the 512-bit digest), nothing else — in
particular no trailing newline and no uppercase letter. -/
theorem create_writes_lowercase_digest (fs : FSys) (p : String) (entry : FileEntry)
    (h1 : fsFind fs p = some entry) (h2 : entry.openErr = none) (h3 : entry.readErr = none)
    (h4 : fsFind fs (sidecarPath p) = none)
    (h5 : fs.writeErrs.lookup (sidecarPath p) = none) :
    (createChecksumFile fs p).2 = ⟨p, .Created, none⟩ ∧
    fsFind (createChecksumFile fs p).1 (sidecarPath p) =
      some ⟨hexEncode (sha512 entry.content), none, none, none⟩ ∧
    (hexEncode (sha512 entry.content)).length = 128 ∧
    ∀ b ∈ hexEncode (sha512 entry.content), isLowerHexByte b = true := by
  have hc := createChecksumFile_eq fs p entry h1 h2 h3 h4 h5
  rw [hc]
  refine ⟨rfl, ?_, ?_, ?_⟩
  · simp [fsFind, List.lookup]
  · rw [hexEncode_length, sha512_length]
  · exact hexEncode_lowerHex (sha512_bytes_lt entry.content)

/-- C8: for every verification and creation outcome, the error field is
non-nil exactly when the status is `Locked`/`CheckingFailed`
(verification) or `LockedCreation`/`Failed` (creation); the remaining
statuses always carry no error. -/
theorem outcome_status_error_consistent (fs : FSys) (p : String) :
    ((checkChecksumFile fs p).Error ≠ none ↔
      ((checkChecksumFile fs p).Status = .LockedVerification ∨
        (checkChecksumFile fs p).Status = .CheckingFailed)) ∧
    ((createChecksumFile fs p).2.Error ≠ none ↔
      ((createChecksumFile fs p).2.Status = .LockedCreation ∨
        (createChecksumFile fs p).2.Status = .Failed)) := by
  constructor
  · unfold checkChecksumFile
    repeat' split
    all_goals simp [apply_ite ChecksumFileVerificationResult.Error,
      apply_ite ChecksumFileVerificationResult.Status, ite_eq_iff]
  · unfold createChecksumFile
    repeat' split
    all_goals simp [apply_ite ChecksumFileCreationResult.Error,
      apply_ite ChecksumFileCreationResult.Status, ite_eq_iff]

/-! ## Traversal theorems -/

/-- When the walk loop stops with an error, the callback has just
appended that error as the last element of the top-level error list. -/
theorem walkListGo_error_last (fs : FSys) :
    ∀ (fuel : Nat) (st : CheckState) (ns : List FSNode) (st2 : CheckState) (e : OsError),
      walkListGo fs fuel st ns = (st2, some e) →
      ∃ pre, st2.errors = pre ++ [CheckError.osErr e] := by
  intro fuel
  induction fuel with
  | zero =>
    intro st ns st2 e h
    cases ns <;> simp [walkListGo] at h
  | succ k ih =>
    intro st ns st2 e h
    cases ns with
    | nil => simp [walkListGo] at h
    | cons a rest =>
      cases a with
      | file p =>
        simp only [walkListGo] at h
        exact ih _ _ _ _ h
      | dir p rd ch =>
        cases rd with
        | some e2 =>
          simp only [walkListGo] at h
          injection h with ha hb
          injection hb with hb
          subst hb
          exact ⟨st.errors, by rw [← ha]⟩
        | none =>
          simp only [walkListGo] at h
          rcases hinner : walkListGo fs k st ch with ⟨st1, oe⟩
          rw [hinner] at h
          cases oe with
          | none => exact ih _ _ _ _ h
          | some e1 =>
            injection h with ha hb
            injection hb with hb
            subst ha; subst hb
            exact ih _ _ _ _ hinner

/-- The walk loop over a list of plain file nodes never returns an
error and appends exactly one outcome per non-sidecar file. -/
theorem walkListGo_files (fs : FSys) :
    ∀ (fuel : Nat) (st : CheckState) (ns : List FSNode),
      (∀ n ∈ ns, isFileNode n = true) → ns.length ≤ fuel →
      walkListGo fs fuel st ns = (⟨st.errors, st.results ++ candidateResults fs ns⟩, none) := by
  intro fuel
  induction fuel with
  | zero =>
    intro st ns hfiles hlen
    cases ns with
    | nil => simp [walkListGo, candidateResults]
    | cons a rest => simp at hlen
  | succ k ih =>
    intro st ns hfiles hlen
    cases ns with
    | nil => simp [walkListGo, candidateResults]
    | cons a rest =>
      cases a with
      | dir p rd ch =>
        exact absurd (hfiles (FSNode.dir p rd ch) (by simp)) (by simp [isFileNode])
      | file p =>
        have hlen2 : rest.length ≤ k := by simp at hlen; omega
        simp only [walkListGo]
        rw [ih _ rest (fun n hn => hfiles n (List.mem_cons_of_mem _ hn)) hlen2]
        simp only [handleChecksumFileVerification, candidateResults]
        split <;> simp

/-- All create-side candidates yield exactly one outcome each. -/
theorem runCreateFiles_length (fs : FSys) (ps : List String) :
    ((runCreateFiles fs ps).2).length = ps.length := by
  induction ps generalizing fs with
  | nil => rfl
  | cons p rest ih => simp [runCreateFiles, ih]

/-- C9: per-file failure isolation — over a list of candidate files, the
verification walk never aborts and records one outcome per non-sidecar
candidate, whatever the outcomes are; likewise every create-side
candidate yields exactly one outcome. -/
theorem per_file_outcomes_isolated (fs : FSys) :
    (∀ (fuel : Nat) (st : CheckState) (ns : List FSNode),
      (∀ n ∈ ns, isFileNode n = true) → ns.length ≤ fuel →
      walkListGo fs fuel st ns = (⟨st.errors, st.results ++ candidateResults fs ns⟩, none)) ∧
    ∀ (fs2 : FSys) (ps : List String), ((runCreateFiles fs2 ps).2).length = ps.length :=
  ⟨walkListGo_files fs, fun fs2 ps => runCreateFiles_length fs2 ps⟩

/-- C10: a walk-node error is appended to the top-level error list
twice — once by the callback, once more when the aborted walk hands the
same error back to `checkCmd`. -/
theorem walk_error_recorded_twice (fs : FSys) (st : CheckState) (root : FSNode)
    (st2 : CheckState) (e : OsError)
    (h : filepathWalk fs st root = (st2, some e)) :
    ∃ pre, (checkWalkRoot fs st root).errors = pre ++ [.osErr e, .osErr e] := by
  obtain ⟨pre, hpre⟩ := walkListGo_error_last fs (nodeFuel root) st [root] st2 e h
  refine ⟨pre, ?_⟩
  unfold checkWalkRoot
  rw [show filepathWalk fs st root = (st2, some e) from h]
  simp [hpre]

/-- C1 (amended): a walk failure is appended to the top-level error list
and aborts the entire walk of that root (the accumulated results stay as
they were at the failure); the argument loop itself never aborts: the
remaining top-level arguments are still processed. -/
theorem walk_failure_aborts_root_run_continues (fs : FSys) (errs : List CheckError)
    (root : FSNode) (st2 : CheckState) (e : OsError)
    (h : filepathWalk fs ⟨errs, []⟩ root = (st2, some e)) :
    checkWalkRoot fs ⟨errs, []⟩ root = ⟨st2.errors ++ [.osErr e], st2.results⟩ ∧
    ∀ (a : CheckArg) (rest : List CheckArg),
      runCheckArgs fs errs (a :: rest) =
        ((runCheckArgs fs (runCheckArg fs errs a).1 rest).1,
          (runCheckArg fs errs a).2 :: (runCheckArgs fs (runCheckArg fs errs a).1 rest).2) := by
  constructor
  · unfold checkWalkRoot
    rw [show filepathWalk fs ⟨errs, []⟩ root = (st2, some e) from h]
  · intro a rest
    rfl

/-! ## Witnesses and counterexamples -/

/-- Witness for C2: a permission-locked file with no sidecar at all is
classified `Locked` with the error attached, not `NotFound`. -/
theorem verify_locked_before_sidecar_witness :
    checkChecksumFile fsC2 pathC2 = ⟨pathC2, .LockedVerification, some .permission⟩ :=
  verify_locked_before_sidecar fsC2 pathC2 entryC2 (by decide) rfl

set_option maxRecDepth 1000000 in
/-- Witness for C3: the "hello" file against an uppercase digest sidecar
ending in a newline is classified `Match` with no error. -/
theorem verify_compares_folded_trimmed_witness :
    checkChecksumFile fsC3 pathC3 = ⟨pathC3, .Match, none⟩ :=
  (verify_compares_folded_trimmed fsC3 pathC3 entryC3 scEntryC3
    (by decide) rfl rfl (by decide) rfl rfl rfl).trans (by decide)

/-- Witness for C4: creating then verifying the three-byte file reports
`Created` and then `Match`. -/
theorem create_then_verify_match_witness :
    (createChecksumFile fsC4 pathC4).2.Status = .Created ∧
    checkChecksumFile (createChecksumFile fsC4 pathC4).1 pathC4 = ⟨pathC4, .Match, none⟩ :=
  create_then_verify_match fsC4 pathC4 entryC4 (by decide) rfl rfl (by decide) rfl

/-- Witness for C5: with an existing sidecar and an unreadable data
file, creation reports `Existing` with no error and changes nothing. -/
theorem create_existing_short_circuits_witness :
    createChecksumFile fsC5 pathC5 = (fsC5, ⟨pathC5, .Existing, none⟩) :=
  create_existing_short_circuits fsC5 pathC5 scEntryC5 (by decide) rfl

/-- Witness for C6: a readable file with no sidecar is classified
`NotFound` with no error. -/
theorem verify_notFound_of_no_sidecar_witness :
    checkChecksumFile fsC6 pathC6 = ⟨pathC6, .NotFound, none⟩ :=
  verify_notFound_of_no_sidecar fsC6 pathC6 entryC6 (by decide) rfl (by decide)

/-- Witness for C7: creating the sidecar of the three-byte file reports
`Created` and installs exactly the 128 lowercase hex digit bytes. -/
theorem create_writes_lowercase_digest_witness :
    (createChecksumFile fsC7 pathC7).2 = ⟨pathC7, .Created, none⟩ ∧
    fsFind (createChecksumFile fsC7 pathC7).1 (sidecarPath pathC7) =
      some ⟨hexEncode (sha512 entryC7.content), none, none, none⟩ ∧
    (hexEncode (sha512 entryC7.content)).length = 128 ∧
    ∀ b ∈ hexEncode (sha512 entryC7.content), isLowerHexByte b = true :=
  create_writes_lowercase_digest fsC7 pathC7 entryC7 (by decide) rfl rfl (by decide) rfl

/-- Witness for C9: walking a locked file, a missing file and a
sidecar-less file yields one outcome each and no abort. -/
theorem per_file_outcomes_isolated_witness :
    walkListGo fsC9 3 ⟨[], []⟩ nsC9 =
      (⟨[], [⟨pathC9a, .LockedVerification, some .permission⟩,
        ⟨pathC9b, .CheckingFailed, some .notExist⟩,
        ⟨pathC9c, .NotFound, none⟩]⟩, none) := by
  rw [(per_file_outcomes_isolated fsC9).1 3 ⟨[], []⟩ nsC9 (by decide) (by decide)]
  decide

/-- Witness for C10: a root directory that fails to enumerate leaves its
error in the top-level error list twice. -/
theorem walk_error_recorded_twice_witness :
    filepathWalk fsC10 ⟨[], []⟩ rootC10 = (⟨[.osErr .other], []⟩, some .other) ∧
    ∃ pre, (checkWalkRoot fsC10 ⟨[], []⟩ rootC10).errors =
      pre ++ [.osErr .other, .osErr .other] :=
  ⟨by decide,
    walk_error_recorded_twice fsC10 ⟨[], []⟩ rootC10 ⟨[.osErr .other], []⟩ .other (by decide)⟩

/-- Counterexample for C1 as stated: when the first child directory of a
root fails to enumerate, the walk of that root produces no result at
all — the sibling file, which on its own would be classified (second
conjunct), is abandoned along with the failed subtree. -/
theorem checkCmd_walk_abandons_siblings :
    (checkWalkRoot fsC1 ⟨[], []⟩ treeC1).results = [] ∧
    handleChecksumFileVerification fsC1 okPathC1 [] = [⟨okPathC1, .NotFound, none⟩] := by
  decide

/-- Witness for the amended C1: the enumeration failure of the root is
recorded and aborts that root's walk, and the argument loop continues
structurally with the remaining arguments. -/
theorem walk_failure_aborts_root_run_continues_witness :
    filepathWalk fsC1w ⟨[], []⟩ rootC1w = (⟨[.osErr .permission], []⟩, some .permission) ∧
    (checkWalkRoot fsC1w ⟨[], []⟩ rootC1w =
        ⟨[CheckError.osErr .permission, .osErr .permission], []⟩ ∧
      ∀ (a : CheckArg) (rest : List CheckArg),
        runCheckArgs fsC1w [] (a :: rest) =
          ((runCheckArgs fsC1w (runCheckArg fsC1w [] a).1 rest).1,
            (runCheckArg fsC1w [] a).2 ::
              (runCheckArgs fsC1w (runCheckArg fsC1w [] a).1 rest).2)) :=
  ⟨by decide,
    walk_failure_aborts_root_run_continues fsC1w [] rootC1w
      ⟨[.osErr .permission], []⟩ .permission (by decide)⟩
